import Mathlib

/-!
Verification of the gowsdl code generator (cmd/gowsdl/main.go, the operations
template opsTmpl, and the types template typesTmpl) against its specification.

The two Go template strings are embedded shallowly: each template becomes a
Lean function from the WSDL/XSD data it ranges over to an abstract syntax of
the Go declarations it emits; every template conditional becomes a Lean
conditional.  Template helper functions (makePublic, replaceReservedWords,
toGoType, findType, findSOAPAction, goString, ...) live in resolver code of
this repository that is not part of the sources here; the embeddings are
therefore parametric in a context record of those helpers, and concrete
instances of the helpers, modelled from the specification, are provided for
evaluation.  Doc-comment emission is elided: it produces no declarations.
-/

namespace GowsdlVerify

/-- The two-character string consisting of two single-quote characters
(character code 39 twice).  This is the text the operations template places
between the double quotes of the SOAP-action argument when the resolved
action is empty. -/
def twoQuotes : String := String.mk [Char.ofNat 39, Char.ofNat 39]

/-! ## Operations template (opsTmpl in cmd/gowsdl/main.go) -/

/-- A WSDL fault as ranged over by the template (`.Faults`). -/
structure WSDLFault where
  name : String
  doc : String
deriving DecidableEq

/-- A WSDL operation as accessed by the template: `.Name`, `.Doc`,
`.Input.Message`, `.Output.Message`, `.Faults`. -/
structure WSDLOperation where
  name : String
  doc : String
  inputMessage : String
  outputMessage : String
  faults : List WSDLFault
deriving DecidableEq

/-- A WSDL portType as ranged over by the template: `.Name`, `.Operations`. -/
structure WSDLPortType where
  name : String
  operations : List WSDLOperation
deriving DecidableEq

/-- The template helper functions used by opsTmpl.  They are defined in
resolver code of the repository that is not among the sources here, so the
embedding is parametric in them. -/
structure OpsCtx where
  makePublic : String → String
  makePrivate : String → String
  replaceReservedWords : String → String
  findType : String → String
  findSOAPAction : String → String → String

/-- `findType .Input.Message | replaceReservedWords | makePublic` of the
template. -/
def requestTypeOf (c : OpsCtx) (op : WSDLOperation) : String :=
  c.makePublic (c.replaceReservedWords (c.findType op.inputMessage))

/-- `findType .Output.Message | replaceReservedWords | makePublic` of the
template. -/
def responseTypeOf (c : OpsCtx) (op : WSDLOperation) : String :=
  c.makePublic (c.replaceReservedWords (c.findType op.outputMessage))

/-- The signature the template emits for one operation method, in the
interface and again on the implementation struct.  `ctxFirstParam` records
the unconditional leading `ctx context.Context` parameter; `requestParam`
is the optional `request *T` parameter; `responseResult` the optional
leading `*T` result; `errorResult` the unconditional trailing `error`. -/
structure MethodSig where
  name : String
  ctxFirstParam : Bool
  requestParam : Option String
  responseResult : Option String
  errorResult : Bool
deriving DecidableEq

/-- Embedding of the method line of opsTmpl:
`makePublic .Name | replaceReservedWords (ctx context.Context,
[request *Req]) ([*Resp,] error)` with the request parameter emitted iff the
resolved request type is non-empty and the pointer result emitted iff the
resolved response type is non-empty. -/
def renderMethodSig (c : OpsCtx) (op : WSDLOperation) : MethodSig :=
  { name := c.replaceReservedWords (c.makePublic op.name)
    ctxFirstParam := true
    requestParam :=
      if requestTypeOf c op ≠ "" then some (requestTypeOf c op) else none
    responseResult :=
      if responseTypeOf c op ≠ "" then some (responseTypeOf c op) else none
    errorResult := true }

/-- The implementation-side method: the same signature plus the first
argument of `service.client.Call`. -/
structure ImplMethod where
  sig : MethodSig
  soapActionArg : String
deriving DecidableEq

/-- Embedding of the implementation method of opsTmpl.  The string literal
passed to `client.Call` is rendered by
`"{{if ne $soapAction ""}}{{$soapAction}}{{else}}''{{end}}"`:
the resolved action itself when non-empty, otherwise the two-character
single-quote text. -/
def renderImplMethod (c : OpsCtx) (priv : String) (op : WSDLOperation) : ImplMethod :=
  { sig := renderMethodSig c op
    soapActionArg :=
      if c.findSOAPAction op.name priv ≠ "" then c.findSOAPAction op.name priv
      else twoQuotes }

/-- The Go declarations opsTmpl emits, in order. -/
inductive OpsDecl where
  | interfaceDecl (name : String) (methods : List MethodSig)
  | implStructDecl (name : String)
  | constructorDecl (name : String) (implName : String)
  | bodyStructDecl (typeName : String) (isResponse : Bool)
  | implMethodDecl (recv : String) (m : ImplMethod)
deriving DecidableEq

def isInterfaceDecl : OpsDecl → Bool
  | .interfaceDecl .. => true
  | _ => false

def isImplStructDecl : OpsDecl → Bool
  | .implStructDecl .. => true
  | _ => false

/-- The per-operation block of the second `{{range .Operations}}`: the
`{{$requestType}}Body` struct, the `{{$responseType}}Body` struct and the
implementation method. -/
def perOpDecls (c : OpsCtx) (priv : String) (op : WSDLOperation) : List OpsDecl :=
  [ .bodyStructDecl (requestTypeOf c op) false
  , .bodyStructDecl (responseTypeOf c op) true
  , .implMethodDecl priv (renderImplMethod c priv op) ]

/-- Concatenation of the per-operation blocks, in declaration order. -/
def opsConcat (c : OpsCtx) (priv : String) : List WSDLOperation → List OpsDecl
  | [] => []
  | op :: ops => perOpDecls c priv op ++ opsConcat c priv ops

/-- Embedding of one iteration of the outer `{{range .}}` of opsTmpl: the
interface with one method per operation, the private implementation struct,
the constructor, then the per-operation blocks. -/
def renderPortType (c : OpsCtx) (pt : WSDLPortType) : List OpsDecl :=
  .interfaceDecl (c.makePublic pt.name) (pt.operations.map (renderMethodSig c))
  :: .implStructDecl (c.makePrivate pt.name)
  :: .constructorDecl (c.makePublic pt.name) (c.makePrivate pt.name)
  :: opsConcat c (c.makePrivate pt.name) pt.operations

/-- The methods of the first interface declaration in a declaration list. -/
def interfaceMethodsOf : List OpsDecl → List MethodSig
  | [] => []
  | .interfaceDecl _ ms :: _ => ms
  | _ :: rest => interfaceMethodsOf rest

/-- All implementation methods in a declaration list, in order. -/
def implMethodsOf : List OpsDecl → List ImplMethod
  | [] => []
  | .implMethodDecl _ m :: rest => m :: implMethodsOf rest
  | _ :: rest => implMethodsOf rest

/-! ## Spec-modelled resolver helpers

The functions below are absent from the sources here (they live in the
resolver part of the repository); each is modelled from the specification
and used to instantiate the parametric embeddings on concrete inputs. -/

/-- The Go keywords, the reserved words of the target language. -/
def goReservedWords : List String :=
  ["break", "case", "chan", "const", "continue", "default", "defer", "else",
   "fallthrough", "for", "func", "go", "goto", "if",
   "import", "interface", "map", "package", "range", "return", "select",
   "struct", "switch", "type", "var"]

/-- Modelled from the spec: reserved-word substitution — a schema name that
collides with a target-language keyword is remapped to a safe alternative by
suffixing (section 4.3); the function itself is absent from the sources
here. -/
def replaceReservedWordsModel (s : String) : String :=
  if s ∈ goReservedWords then s ++ "_" else s

/-- Modelled from the spec: the exported casing transform — the first
character is upper-cased (section 4.3); absent from the sources here. -/
def makePublicModel (s : String) : String :=
  match s.data with
  | [] => ""
  | ch :: rest => String.mk (ch.toUpper :: rest)

/-- Modelled from the spec: the unexported casing transform — the first
character is lower-cased; absent from the sources here. -/
def makePrivateModel (s : String) : String :=
  match s.data with
  | [] => ""
  | ch :: rest => String.mk (ch.toLower :: rest)

/-- Modelled from the spec: strips the namespace prefix, the text up to and
including the colon (character code 58), from a qualified name; a name with
no colon is returned unchanged.  Absent from the sources here. -/
def removeNSModel (s : String) : String :=
  match s.data.dropWhile (fun ch => ch ≠ Char.ofNat 58) with
  | [] => s
  | _ :: rest => String.mk rest

/-- Modelled from the spec: sanitization strips characters invalid in the
target identifier syntax, keeping letters, digits and the underscore
(character code 95).  Absent from the sources here. -/
def normalizeModel (s : String) : String :=
  String.mk (s.data.filter (fun ch => ch.isAlphanum || ch == Char.ofNat 95))

/-- Modelled from the spec (section 4.4): findSOAPAction resolves the
soapAction from the explicit SOAP-action attribute of the WSDL binding
operation, or to the empty-string default when the attribute is absent.
The binder code is absent from the sources here; the bindings are modelled
as an association list from operation name to the optional attribute (the
portType argument of the template call is not needed by the model). -/
def findSOAPActionModel (bindings : List (String × Option String))
    (opName : String) (_privateType : String) : String :=
  match bindings.lookup opName with
  | some (some a) => a
  | some none => ""
  | none => ""

/-- A concrete operations context built from the spec-modelled helpers;
findType is modelled from the spec (section 4.4) as stripping the
namespace-qualified part of the message name. -/
def opsCtxM : OpsCtx :=
  { makePublic := makePublicModel
    makePrivate := makePrivateModel
    replaceReservedWords := replaceReservedWordsModel
    findType := removeNSModel
    findSOAPAction :=
      findSOAPActionModel [("GetThing", some "http://example.org/GetThing")] }

/-- The same context with a binding that carries no SOAP-action attribute. -/
def opsCtxNoAction : OpsCtx :=
  { opsCtxM with findSOAPAction := findSOAPActionModel [("GetThing", none)] }

/-- A sample operation with both messages present. -/
def opGetThing : WSDLOperation :=
  { name := "GetThing", doc := "", inputMessage := "tns:GetThingRequest"
    outputMessage := "tns:GetThingResponse", faults := [] }

/-- A sample notification-style operation with an empty input message. -/
def opNotify : WSDLOperation :=
  { name := "notify", doc := "", inputMessage := ""
    outputMessage := "", faults := [] }

/-- A sample portType. -/
def ptThing : WSDLPortType :=
  { name := "thingPort", operations := [opGetThing, opNotify] }

/-! ## The outfile function (cmd/gowsdl/main.go) -/

/-- The observable outcome of one outfile call: the content of the output
file (none when the file could not even be created), whether the call exited
the process fatally, and whether it returned a non-nil error. -/
structure OutfileOutcome where
  fileContent : Option String
  fatalExit : Bool
  errReturned : Bool
deriving DecidableEq

/-- The buffer outfile assembles before formatting: the header chunk for the
types artifact, the imports chunk otherwise, followed by the keyed chunk. -/
def outfileData (gocode : String → String) (key : String) : String :=
  (if key = "types" then gocode "header" else gocode "imports") ++ gocode key

/-- Embedding of outfile: creates (truncating) the output file, assembles the
buffer, formats it, and on a formatting failure writes the raw unformatted
buffer to the file and exits fatally via log.Fatalln; on success writes the
formatted text and runs the import fixer, whose failure is returned as an
error (the file keeping the formatted content).  The external formatter and
import-fixer processes are modelled as parameters; `createOk` models the
os.Create outcome. -/
def outfile (fmtSource : String → Option String) (goimportsOk createOk : Bool)
    (gocode : String → String) (key : String) : OutfileOutcome :=
  if createOk then
    let data := outfileData gocode key
    match fmtSource data with
    | none => { fileContent := some data, fatalExit := true, errReturned := false }
    | some src =>
        { fileContent := some src, fatalExit := false, errReturned := !goimportsOk }
  else { fileContent := none, fatalExit := false, errReturned := true }

/-- A sample generated-code map. -/
def goCodeSample : String → String :=
  fun k => if k = "header" then "HDR;" else if k = "types" then "TYPES" else ""

/-! ## The command-line front end (main in cmd/gowsdl/main.go) -/

/-- Models the Go path join for path components that are already clean and
non-empty (the stdlib function additionally cleans the joined path). -/
def filepathJoin (a b : String) : String :=
  if a = "" then b else a ++ "/" ++ b

/-- What the front end decides before and during emission: whether it
aborted before loading the WSDL, and which output paths it opens. -/
structure MainResult where
  abortedBeforeLoad : Bool
  outputPaths : List String
deriving DecidableEq

/-- Embedding of the front end of main: the WSDL path is the last argument;
when the -o flag value equals it, the run aborts fatally before NewGoWSDL is
called; otherwise the run proceeds and the two files opened by the outfile
calls are dir/pkg/types.go and dir/pkg/operations.go — the -o value itself
is never used as an output path. -/
def mainFrontEnd (outFileFlag dirFlag pkgFlag wsdlPath : String) : MainResult :=
  if outFileFlag = wsdlPath then
    { abortedBeforeLoad := true, outputPaths := [] }
  else
    { abortedBeforeLoad := false
      outputPaths :=
        [ filepathJoin (filepathJoin dirFlag pkgFlag) "types.go"
        , filepathJoin (filepathJoin dirFlag pkgFlag) "operations.go" ] }

/-! ## Types template (typesTmpl) — data model

The XSD structures as accessed by typesTmpl.  A complex type and an element
declaration are mutually nested (an element may carry an inline complex
type), so the two are one mutual inductive; the non-recursive simple-type
and attribute structures come first.  The Doc fields are carried for
completeness although doc-comment emission produces no declarations. -/

/-- One enumeration facet: `.Value`, `.Doc`. -/
structure EnumValue where
  value : String
  doc : String

/-- An XSD simple type as accessed by typesTmpl: `.Name`, `.Doc`,
`.List.ItemType`, `.Union.MemberTypes`, `.Union.SimpleType`,
`.Restriction.Base`, `.Restriction.Enumeration`. -/
structure XSDSimpleType where
  name : String
  doc : String
  listItemType : String
  unionMemberTypes : String
  unionHasSimpleType : Bool
  restrictionBase : String
  enumeration : List EnumValue

/-- An XSD attribute declaration: `.Name`, `.Type`, `.Doc`. -/
structure XSDAttr where
  name : String
  typ : String
  doc : String

mutual

/-- An XSD complex type as accessed by typesTmpl, with the fields of its
complex-content extension (`.ComplexContent.Extension.*`), of its
simple-content extension (`.SimpleContent.Extension.*`) and its own groups
(`.Sequence`, `.Choice`, `.SequenceChoice`, `.All`, `.Any`,
`.Attributes`).  `anyCount` is the length of the `.Any` list, whose entries
the template only ranges over. -/
inductive XSDComplexType where
  | mk (name : String)
       (ccBase : String)
       (ccSequence ccChoice ccSequenceChoice : List XSDElement)
       (ccAttributes : List XSDAttr)
       (scBase : String)
       (scAttributes : List XSDAttr)
       (sequence choice sequenceChoice allEl : List XSDElement)
       (anyCount : Nat)
       (attributes : List XSDAttr)

/-- An XSD element declaration as accessed by typesTmpl: `.Name`, `.Ref`,
`.Type`, `.MaxOccurs`, `.Doc`, `.Nillable`, `.SimpleType`,
`.ComplexType`. -/
inductive XSDElement where
  | mk (name ref typ maxOccurs doc : String)
       (nillable : Bool)
       (simpleType : Option XSDSimpleType)
       (complexType : Option XSDComplexType)

end

/-- The abstract syntax of one Go struct field emitted by typesTmpl.
`plain` is a named field (`isSlice` records a leading `[]`); `embedded` is a
bare embedded type (value embedding); `chardata` is the synthesized
`Value T` field tagged `xml:",chardata"` of a simple-content extension;
`inlineStruct` is a field of inline anonymous struct type; `anyItems` is the
`Items []string` field tagged `xml:",any"`. -/
inductive GoField where
  | plain (name : String) (isSlice : Bool) (typ : String) (xmlTag : String)
  | embedded (typ : String)
  | chardata (typ : String)
  | inlineStruct (name : String) (isSlice : Bool) (body : List GoField) (xmlTag : String)
  | anyItems

/-- Whether a field is rendered as a slice. -/
def isSliceField : GoField → Bool
  | .plain _ s _ _ => s
  | .inlineStruct _ s _ _ => s
  | _ => false

/-- Whether a field is the synthesized character-data field. -/
def isChardataField : GoField → Bool
  | .chardata _ => true
  | _ => false

/-- The template helper functions used by typesTmpl; they live in resolver
code of the repository absent from the sources here, so the embedding is
parametric in them. -/
structure TypesCtx where
  toGoType : String → Bool → String
  replaceReservedWords : String → String
  replaceAttrReservedWords : String → String
  makePublic : String → String
  makeFieldPublic : String → String
  normalize : String → String
  removeNS : String → String
  goString : String → String
  removePointerFromType : String → String
  wrapNS : String → String
  findNameByType : String → String

/-- Embedding of the `Attributes` template: one field per attribute, public
field name from the normalized attribute name, the declared type when
non-empty and `string` otherwise, tagged `name,attr,omitempty`. -/
def tmplAttributes (c : TypesCtx) (attrs : List XSDAttr) : List GoField :=
  attrs.map (fun a =>
    GoField.plain (c.makeFieldPublic (c.normalize a.name)) false
      (if a.typ ≠ "" then c.toGoType a.typ false else "string")
      (a.name ++ ",attr,omitempty"))

/-- Embedding of the `Any` template: one `Items []string` field per entry of
the `.Any` list. -/
def tmplAny (n : Nat) : List GoField :=
  List.replicate n GoField.anyItems

mutual

/-- Embedding of the body of one `{{range .}}` iteration of the `Elements`
template: the `ref` branch, the inline-simple-type branches, the inline
anonymous complex type, and the typed branch. -/
def tmplElement (c : TypesCtx) : XSDElement → GoField
  | .mk name ref typ maxOccurs _doc nillable simpleType complexType =>
    if ref ≠ "" then
      GoField.plain (c.makePublic (c.replaceReservedWords (c.removeNS ref)))
        (maxOccurs == "unbounded") (c.toGoType ref nillable)
        (c.removeNS ref ++ ",omitempty")
    else if typ = "" then
      match simpleType with
      | some st =>
        if st.listItemType ≠ "" then
          GoField.plain (c.makeFieldPublic (c.normalize name)) true
            (c.toGoType st.listItemType false) (name ++ ",omitempty")
        else
          GoField.plain (c.makeFieldPublic (c.normalize name)) false
            (c.toGoType st.restrictionBase false) (name ++ ",omitempty")
      | none =>
        GoField.inlineStruct (c.makePublic (c.replaceReservedWords name))
          (maxOccurs == "unbounded")
          (match complexType with
           | none => []
           | some ct => tmplInlineBody c ct)
          (name ++ ",omitempty")
    else
      GoField.plain (c.makeFieldPublic (c.replaceAttrReservedWords name))
        (maxOccurs == "unbounded") (c.toGoType typ nillable)
        (name ++ ",omitempty")

/-- Embedding of the `Elements` template: one field per element. -/
def tmplElements (c : TypesCtx) : List XSDElement → List GoField
  | [] => []
  | e :: es => tmplElement c e :: tmplElements c es

/-- Embedding of the `{{with .ComplexType}}` body of the `ComplexTypeInline`
template: the `ComplexContent` invocation when the complex-content extension
base is non-empty, the `SimpleContent` invocation when the simple-content
extension base is non-empty, otherwise the own sequence, choice,
sequence-choice and all groups followed by the attributes.  The two
extension bodies are spelled out here exactly as the `ComplexContent` and
`SimpleContent` templates render them. -/
def tmplInlineBody (c : TypesCtx) : XSDComplexType → List GoField
  | .mk _name ccBase ccSeq ccChoice ccSeqChoice ccAttrs scBase scAttrs
      seq choice seqChoice allEl _anyCount attrs =>
    if ccBase ≠ "" then
      (if c.toGoType ccBase false ≠ ""
       then [GoField.embedded (c.toGoType ccBase false)] else [])
      ++ tmplElements c ccSeq ++ tmplElements c ccChoice
      ++ tmplElements c ccSeqChoice ++ tmplAttributes c ccAttrs
    else if scBase ≠ "" then
      GoField.chardata (c.toGoType scBase false) :: tmplAttributes c scAttrs
    else
      tmplElements c seq ++ tmplElements c choice ++ tmplElements c seqChoice
      ++ tmplElements c allEl ++ tmplAttributes c attrs

end

/-- Embedding of the `ComplexContent` template, applied to the fields of the
complex-content extension: the resolved base type embedded by value when it
is non-empty, then the fields of the extension sequence, choice and
sequence-choice groups and of the extension attributes. -/
def tmplComplexContent (c : TypesCtx) (base : String)
    (seq choice seqChoice : List XSDElement) (attrs : List XSDAttr) : List GoField :=
  (if c.toGoType base false ≠ ""
   then [GoField.embedded (c.toGoType base false)] else [])
  ++ tmplElements c seq ++ tmplElements c choice
  ++ tmplElements c seqChoice ++ tmplAttributes c attrs

/-- Embedding of the `SimpleContent` template: the synthesized character-data
field typed as the resolved base, then the attribute fields. -/
def tmplSimpleContent (c : TypesCtx) (base : String) (attrs : List XSDAttr) : List GoField :=
  GoField.chardata (c.toGoType base false) :: tmplAttributes c attrs

/-- The type-level declarations typesTmpl emits. -/
inductive TypeDecl where
  | aliasDecl (name target : String)
  | structDecl (name : String) (xmlName : Option String) (fields : List GoField)
  | constBlock (typeName : String) (consts : List (String × String))

/-- The number of character-data fields a declaration carries (at the top
level of its field list; an alias or const block carries none). -/
def declChardataCount : TypeDecl → Nat
  | .structDecl _ _ fs => fs.countP isChardataField
  | _ => 0

/-- `replaceReservedWords .Name | wrapNS | makePublic` of typesTmpl. -/
def typeNameOf (c : TypesCtx) (name : String) : String :=
  c.makePublic (c.wrapNS (c.replaceReservedWords name))

/-- One constant of an enumeration block of typesTmpl: the identifier is the
type name concatenated with the sanitized facet value
(`{{$typeName}}{{$value | makePublic}}` with
`$value := replaceReservedWords .Value`), the string value is
`"{{goString .Value}}"` — goString applied to the original facet value. -/
def enumConstOf (c : TypesCtx) (typeName v : String) : String × String :=
  (typeName ++ c.makePublic (c.replaceReservedWords v), c.goString v)

/-- Embedding of the enumeration const block of typesTmpl: one constant per
facet value, in facet order. -/
def tmplEnumBlock (c : TypesCtx) (typeName : String) (es : List EnumValue) :
    List (String × String) :=
  es.map (fun e => enumConstOf c typeName e.value)

/-- The underlying Go type of a simple-type declaration of typesTmpl: a
slice of the list item type, `string` for unions, the resolved restriction
base, or the open placeholder. -/
def simpleTypeUnderlying (c : TypesCtx) (st : XSDSimpleType) : String :=
  if st.listItemType ≠ "" then
    "[]" ++ c.removePointerFromType (c.toGoType st.listItemType false)
  else if st.unionMemberTypes ≠ "" then "string"
  else if st.unionHasSimpleType then "string"
  else if st.restrictionBase ≠ "" then
    c.removePointerFromType (c.toGoType st.restrictionBase false)
  else "interface\x7b\x7d"

/-- Embedding of the `SimpleType` template: the type declaration, followed by
the const block when the restriction carries enumeration facets. -/
def tmplSimpleType (c : TypesCtx) (st : XSDSimpleType) : List TypeDecl :=
  .aliasDecl (typeNameOf c st.name) (simpleTypeUnderlying c st)
  :: (if st.enumeration.isEmpty then []
      else
        [.constBlock (typeNameOf c st.name)
          (tmplEnumBlock c (typeNameOf c st.name) st.enumeration)])

/-- Embedding of one iteration of the `{{range .ComplexTypes}}` of typesTmpl
(under target namespace `ns`): a complex type whose simple-content extension
has no attributes and whose base resolves to `string` is emitted as a plain
`type N string` alias; every other one is emitted as a struct whose XMLName
field is present when findNameByType remaps the name, and whose fields come
from the complex-content extension, the simple-content extension, or the own
groups and attributes. -/
def tmplComplexTypeGlobal (c : TypesCtx) (ns : String) : XSDComplexType → TypeDecl
  | .mk name ccBase ccSeq ccChoice ccSeqChoice ccAttrs scBase scAttrs
      seq choice seqChoice allEl anyCount attrs =>
    if scAttrs.length = 0 ∧ c.toGoType scBase false = "string" then
      .aliasDecl (typeNameOf c name) "string"
    else
      let t := c.findNameByType name
      let xmlName := if name ≠ t then some (ns ++ " " ++ t) else none
      let body :=
        if ccBase ≠ "" then
          tmplComplexContent c ccBase ccSeq ccChoice ccSeqChoice ccAttrs
        else if scBase ≠ "" then
          tmplSimpleContent c scBase scAttrs
        else
          tmplElements c seq ++ tmplAny anyCount ++ tmplElements c choice
          ++ tmplElements c seqChoice ++ tmplElements c allEl
          ++ tmplAttributes c attrs
      .structDecl (typeNameOf c name) xmlName body

/-! ## Spec-modelled enumeration-constant building

The emission site of the const block carries no collision check; the
uniqueness guarantee lives in the resolver, which is absent from the sources
here and is therefore modelled from the specification. -/

/-- The constant identifiers an enumeration block derives, in facet order. -/
def enumNamesOf (c : TypesCtx) (tn : String) (vals : List String) : List String :=
  vals.map (fun v => (enumConstOf c tn v).fst)

/-- Modelled from the spec (section 4.3): the resolver walks the facet
values in first-seen order, deriving each constant from the type name and
the sanitized value exactly as the template emits it, and fails with
EnumNameCollision when a derived identifier repeats one already seen.
The collision-checking resolver code is absent from the sources here. -/
def enumConstsGo (c : TypesCtx) (tn : String) (seen : List String) :
    List String → Except String (List (String × String))
  | [] => .ok []
  | v :: vs =>
    if (enumConstOf c tn v).fst ∈ seen then .error "EnumNameCollision"
    else
      match enumConstsGo c tn ((enumConstOf c tn v).fst :: seen) vs with
      | .ok rest => .ok (enumConstOf c tn v :: rest)
      | .error e => .error e

/-- Modelled from the spec: the resolver builds the full constant block of a
type, starting from no seen identifiers. -/
def buildEnumConstants (c : TypesCtx) (tn : String) (vals : List String) :
    Except String (List (String × String)) :=
  enumConstsGo c tn [] vals

/-! ## Spec-modelled types-side helpers and sample data -/

/-- Modelled from the spec (section 4.3, string-escaping only): goString
escapes a facet value for a double-quoted Go string literal, doubling each
backslash (character code 92) and escaping each double quote (character
code 34); every other character is kept verbatim. -/
def goEscapeChar (ch : Char) : List Char :=
  if ch = Char.ofNat 92 then [Char.ofNat 92, Char.ofNat 92]
  else if ch = Char.ofNat 34 then [Char.ofNat 92, Char.ofNat 34]
  else [ch]

/-- The escaped character list of a facet value. -/
def goStringChars : List Char → List Char
  | [] => []
  | ch :: rest => goEscapeChar ch ++ goStringChars rest

/-- Modelled from the spec: the goString template helper (absent from the
sources here) — pure string-literal escaping. -/
def goStringModel (s : String) : String :=
  String.mk (goStringChars s.data)

/-- The inverse reading of a Go string-literal body, as a two-state scanner:
in the escaped state (first argument true) the next character is taken
verbatim; otherwise a backslash switches to the escaped state and any other
character is taken verbatim. -/
def goUnescapeAux : Bool → List Char → List Char
  | _, [] => []
  | true, d :: rest => d :: goUnescapeAux false rest
  | false, ch :: rest =>
    if ch = Char.ofNat 92 then goUnescapeAux true rest
    else ch :: goUnescapeAux false rest

/-- The unescaped reading of a string-literal body. -/
def goUnescape (s : String) : String :=
  String.mk (goUnescapeAux false s.data)

/-- Modelled from the spec (section 4.3): the built-in scalar mapping table
— schema string to Go string, int and integer to a signed integer, boolean
to bool, the date and time kinds to the soap wrapper types, the binary kinds
to a byte slice; an unrecognized non-empty name resolves to the exported
form of its stripped local name, the empty name to the open placeholder; a
nillable use takes a pointer shape.  The toGoType function is absent from
the sources here. -/
def toGoTypeModel (t : String) (nillable : Bool) : String :=
  let ln := removeNSModel t
  let base :=
    if ln = "string" then "string"
    else if ln = "int" then "int"
    else if ln = "integer" then "int"
    else if ln = "boolean" then "bool"
    else if ln = "dateTime" then "soap.XSDDateTime"
    else if ln = "date" then "soap.XSDDate"
    else if ln = "time" then "soap.XSDTime"
    else if ln = "base64Binary" then "[]byte"
    else if ln = "hexBinary" then "[]byte"
    else if ln = "" then "interface\x7b\x7d"
    else makePublicModel (replaceReservedWordsModel ln)
  if nillable then "*" ++ base else base

/-- A concrete types context built from the spec-modelled helpers; the
namespace wrapping and the element-name remapping are instantiated as the
identity (an empty alias table and no remapped element names). -/
def typesCtxM : TypesCtx :=
  { toGoType := toGoTypeModel
    replaceReservedWords := replaceReservedWordsModel
    replaceAttrReservedWords := replaceReservedWordsModel
    makePublic := makePublicModel
    makeFieldPublic := makePublicModel
    normalize := normalizeModel
    removeNS := removeNSModel
    goString := goStringModel
    removePointerFromType := fun s => s
    wrapNS := fun s => s
    findNameByType := fun s => s }

/-- A global complex type whose simple-content extension base resolves to
the Go string type and which declares no attributes. -/
def ctToken : XSDComplexType :=
  .mk "Token" "" [] [] [] [] "xsd:string" [] [] [] [] [] 0 []

/-- A global complex type with a complex-content extension: base
`tns:BaseThing`, one own sequence element and one own attribute. -/
def ctExtended : XSDComplexType :=
  .mk "ExtThing" "tns:BaseThing"
    [ .mk "extra" "" "xsd:string" "1" "" false none none ] [] []
    [ { name := "kind", typ := "xsd:string", doc := "" } ]
    "" [] [] [] [] [] 0 []

/-- A global complex type with a simple-content extension whose base does
not resolve to string. -/
def ctMeasure : XSDComplexType :=
  .mk "Measure" "" [] [] [] [] "xsd:int"
    [ { name := "unit", typ := "xsd:string", doc := "" } ]
    [] [] [] [] 0 []

/-- A sample element carrying a ref. -/
def elRefItem : XSDElement :=
  .mk "" "tns:Item" "" "unbounded" "" true none none

/-- A sample typed element. -/
def elTyped : XSDElement :=
  .mk "count" "" "xsd:int" "1" "" false none none

/-- A sample element with an inline anonymous complex type. -/
def elInline : XSDElement :=
  .mk "box" "" "" "unbounded" "" false none
    (some (.mk "" "" [] [] [] [] "" [] [ elTyped ] [] [] [] 0 []))

/-! ## Helper lemmas -/

theorem opsConcat_countP_interface (c : OpsCtx) (priv : String) :
    ∀ ops : List WSDLOperation,
      (opsConcat c priv ops).countP isInterfaceDecl = 0 := by
  intro ops
  induction ops with
  | nil => rfl
  | cons op ops ih =>
    simp [opsConcat, perOpDecls, List.countP_append, List.countP_cons,
      isInterfaceDecl, ih]

theorem opsConcat_countP_struct (c : OpsCtx) (priv : String) :
    ∀ ops : List WSDLOperation,
      (opsConcat c priv ops).countP isImplStructDecl = 0 := by
  intro ops
  induction ops with
  | nil => rfl
  | cons op ops ih =>
    simp [opsConcat, perOpDecls, List.countP_append, List.countP_cons,
      isImplStructDecl, ih]

theorem implMethodsOf_opsConcat (c : OpsCtx) (priv : String) :
    ∀ ops : List WSDLOperation,
      implMethodsOf (opsConcat c priv ops)
        = ops.map (fun op => renderImplMethod c priv op) := by
  intro ops
  induction ops with
  | nil => rfl
  | cons op ops ih => simp [opsConcat, perOpDecls, implMethodsOf, ih]

theorem tmplElements_nil (c : TypesCtx) : tmplElements c [] = [] := by
  rw [tmplElements.eq_def]

theorem tmplElements_cons (c : TypesCtx) (e : XSDElement) (es : List XSDElement) :
    tmplElements c (e :: es) = tmplElement c e :: tmplElements c es := by
  rw [tmplElements.eq_def]

theorem tmplElement_ref (c : TypesCtx) (name ref typ maxOccurs doc : String)
    (nillable : Bool) (st : Option XSDSimpleType) (ct : Option XSDComplexType)
    (h : ref ≠ "") :
    tmplElement c (.mk name ref typ maxOccurs doc nillable st ct)
      = GoField.plain (c.makePublic (c.replaceReservedWords (c.removeNS ref)))
          (maxOccurs == "unbounded") (c.toGoType ref nillable)
          (c.removeNS ref ++ ",omitempty") := by
  rw [tmplElement.eq_def]
  simp [h]

theorem tmplElement_typed (c : TypesCtx) (name typ maxOccurs doc : String)
    (nillable : Bool) (st : Option XSDSimpleType) (ct : Option XSDComplexType)
    (h : typ ≠ "") :
    tmplElement c (.mk name "" typ maxOccurs doc nillable st ct)
      = GoField.plain (c.makeFieldPublic (c.replaceAttrReservedWords name))
          (maxOccurs == "unbounded") (c.toGoType typ nillable)
          (name ++ ",omitempty") := by
  rw [tmplElement.eq_def]
  simp [h]

theorem tmplElement_inline (c : TypesCtx) (name maxOccurs doc : String)
    (nillable : Bool) (ct : Option XSDComplexType) :
    tmplElement c (.mk name "" "" maxOccurs doc nillable none ct)
      = GoField.inlineStruct (c.makePublic (c.replaceReservedWords name))
          (maxOccurs == "unbounded")
          (match ct with
           | none => []
           | some ct2 => tmplInlineBody c ct2)
          (name ++ ",omitempty") := by
  rw [tmplElement.eq_def]
  simp

/-- Claim C1: for every WSDL portType the operations template emits exactly
one interface declaration and exactly one concrete implementation struct;
the interface carries exactly one method per operation and the
implementation carries the same one method per operation; every method has
a leading context parameter and a trailing error result, its request
parameter is present exactly when the resolved request type is non-empty,
and its pointer response result is present exactly when the resolved
response type is non-empty. -/
theorem claim_C1 (c : OpsCtx) (pt : WSDLPortType) :
    (renderPortType c pt).countP isInterfaceDecl = 1
    ∧ (renderPortType c pt).countP isImplStructDecl = 1
    ∧ interfaceMethodsOf (renderPortType c pt)
        = pt.operations.map (renderMethodSig c)
    ∧ implMethodsOf (renderPortType c pt)
        = pt.operations.map (fun op => renderImplMethod c (c.makePrivate pt.name) op)
    ∧ ∀ op, op ∈ pt.operations →
        (renderMethodSig c op).ctxFirstParam = true
        ∧ ((renderMethodSig c op).requestParam.isSome = true
            ↔ requestTypeOf c op ≠ "")
        ∧ ((renderMethodSig c op).responseResult.isSome = true
            ↔ responseTypeOf c op ≠ "")
        ∧ (renderMethodSig c op).errorResult = true := by
  refine ⟨?_, ?_, rfl, ?_, ?_⟩
  · simp [renderPortType, List.countP_cons, isInterfaceDecl, isImplStructDecl,
      opsConcat_countP_interface]
  · simp [renderPortType, List.countP_cons, isInterfaceDecl, isImplStructDecl,
      opsConcat_countP_struct]
  · simp [renderPortType, implMethodsOf, implMethodsOf_opsConcat]
  · intro op _hop
    refine ⟨rfl, ?_, ?_, rfl⟩
    · by_cases h : requestTypeOf c op = "" <;> simp [renderMethodSig, h]
    · by_cases h : responseTypeOf c op = "" <;> simp [renderMethodSig, h]

/-- Witness for claim C1 at the sample portType: the counts evaluate, the
notification-style operation loses its request parameter and result, and
the two-message operation keeps both. -/
theorem claim_C1_witness :
    (renderPortType opsCtxM ptThing).countP isInterfaceDecl = 1
    ∧ (renderMethodSig opsCtxM opNotify).ctxFirstParam = true
    ∧ (renderMethodSig opsCtxM opNotify).requestParam = none
    ∧ (renderMethodSig opsCtxM opGetThing).requestParam = some "GetThingRequest"
    ∧ (renderMethodSig opsCtxM opGetThing).responseResult = some "GetThingResponse" := by
  refine ⟨(claim_C1 opsCtxM ptThing).1,
    ((claim_C1 opsCtxM ptThing).2.2.2.2 opNotify (by decide)).1, ?_, ?_, ?_⟩
  all_goals decide

/-- Claim C2 counterexample: for an operation whose binding carries no
SOAP-action attribute the resolved action is the empty string, and the
string the generated method passes to the client call is the two-character
single-quote text — not the empty string the claim requires. -/
theorem claim_C2_cex :
    opsCtxNoAction.findSOAPAction opGetThing.name "thingService" = ""
    ∧ (renderImplMethod opsCtxNoAction "thingService" opGetThing).soapActionArg
        = twoQuotes
    ∧ twoQuotes ≠ "" := by
  refine ⟨?_, ?_, ?_⟩ <;> decide

/-- Claim C2 (amended): the SOAP action string passed to the client call
equals the explicit SOAP-action attribute of the binding when that
attribute is present and non-empty; when the attribute is absent (or
present but empty) the resolved action is the empty string and the string
passed is the two-character single-quote text, not the empty string. -/
theorem claim_C2_amended (bindings : List (String × Option String))
    (priv : String) (op : WSDLOperation) (c : OpsCtx)
    (hc : c.findSOAPAction = findSOAPActionModel bindings) :
    (∀ a, bindings.lookup op.name = some (some a) → a ≠ "" →
        (renderImplMethod c priv op).soapActionArg = a)
    ∧ ((bindings.lookup op.name = some none ∨ bindings.lookup op.name = none) →
        (renderImplMethod c priv op).soapActionArg = twoQuotes) := by
  constructor
  · intro a hl ha
    simp [renderImplMethod, hc, findSOAPActionModel, hl, ha]
  · intro hl
    rcases hl with hl | hl <;>
      simp [renderImplMethod, hc, findSOAPActionModel, hl]

/-- Witness for the amended claim C2 at a binding with an explicit
non-empty SOAP-action attribute. -/
theorem claim_C2_witness :
    (renderImplMethod opsCtxM "thingService" opGetThing).soapActionArg
      = "http://example.org/GetThing" :=
  (claim_C2_amended [("GetThing", some "http://example.org/GetThing")]
    "thingService" opGetThing opsCtxM rfl).1
    "http://example.org/GetThing" (by decide) (by decide)

/-! ## Enumeration constants (claims C3 and C9) -/

theorem enumConstsGo_ok (c : TypesCtx) (tn : String) :
    ∀ (vals seen : List String) (cs : List (String × String)),
      enumConstsGo c tn seen vals = .ok cs →
      cs = vals.map (enumConstOf c tn)
      ∧ (enumNamesOf c tn vals).Nodup
      ∧ ∀ x ∈ enumNamesOf c tn vals, x ∉ seen := by
  intro vals
  induction vals with
  | nil =>
    intro seen cs h
    simp [enumConstsGo] at h
    simp [← h, enumNamesOf]
  | cons v vs ih =>
    intro seen cs h
    by_cases hm : (enumConstOf c tn v).fst ∈ seen
    · simp [enumConstsGo, hm] at h
    · simp only [enumConstsGo, hm, if_false, ite_false] at h
      cases hgo : enumConstsGo c tn ((enumConstOf c tn v).fst :: seen) vs with
      | error e => rw [hgo] at h; simp at h
      | ok rest =>
        rw [hgo] at h
        simp only [Except.ok.injEq] at h
        obtain ⟨h1, h2, h3⟩ := ih ((enumConstOf c tn v).fst :: seen) rest hgo
        have hfst : (enumConstOf c tn v).fst ∉ enumNamesOf c tn vs := by
          intro hx
          exact (h3 _ hx) (List.mem_cons_self _ _)
        refine ⟨?_, ?_, ?_⟩
        · rw [← h, h1]; rfl
        · simp only [enumNamesOf, List.map_cons, List.nodup_cons]
          exact ⟨fun hx => hfst hx, h2⟩
        · intro x hx
          simp only [enumNamesOf, List.map_cons, List.mem_cons] at hx
          rcases hx with hx | hx
          · rw [hx]; exact hm
          · intro hxs
            exact (h3 x hx) (List.mem_cons_of_mem _ hxs)

theorem enumConstsGo_error (c : TypesCtx) (tn : String) :
    ∀ (vals seen : List String),
      (¬ (enumNamesOf c tn vals).Nodup
        ∨ ∃ x ∈ enumNamesOf c tn vals, x ∈ seen) →
      enumConstsGo c tn seen vals = .error "EnumNameCollision" := by
  intro vals
  induction vals with
  | nil =>
    intro seen h
    rcases h with h | ⟨x, hx, _⟩
    · simp [enumNamesOf] at h
    · simp [enumNamesOf] at hx
  | cons v vs ih =>
    intro seen h
    by_cases hm : (enumConstOf c tn v).fst ∈ seen
    · simp [enumConstsGo, hm]
    · have hrec : ¬ (enumNamesOf c tn vs).Nodup
          ∨ ∃ x ∈ enumNamesOf c tn vs, x ∈ (enumConstOf c tn v).fst :: seen := by
        rcases h with h | ⟨x, hx, hxs⟩
        · by_cases hv : (enumConstOf c tn v).fst ∈ enumNamesOf c tn vs
          · exact Or.inr ⟨_, hv, List.mem_cons_self _ _⟩
          · left
            intro hnd
            apply h
            rw [show enumNamesOf c tn (v :: vs)
                = (enumConstOf c tn v).fst :: enumNamesOf c tn vs from rfl]
            exact List.nodup_cons.mpr ⟨hv, hnd⟩
        · have hx2 : x = (enumConstOf c tn v).fst ∨ x ∈ enumNamesOf c tn vs := by
            simpa [enumNamesOf] using hx
          rcases hx2 with hx2 | hx2
          · subst hx2
            exact absurd hxs hm
          · exact Or.inr ⟨x, hx2, List.mem_cons_of_mem _ hxs⟩
      have hstep := ih ((enumConstOf c tn v).fst :: seen) hrec
      simp [enumConstsGo, hm, hstep]

/-- Claim C3: when the spec-modelled constant builder succeeds, every
emitted constant identifier is the type name concatenated with the
sanitized facet value exactly as the template renders it, and the
identifiers of one const block are pairwise distinct; when two facet values
sanitize to colliding identifiers, the builder fails with
EnumNameCollision instead of emitting duplicate constants. -/
theorem claim_C3 (c : TypesCtx) (tn : String) (vals : List String) :
    (∀ cs, buildEnumConstants c tn vals = .ok cs →
        cs = vals.map (enumConstOf c tn)
        ∧ (cs.map Prod.fst).Nodup
        ∧ ∀ v ∈ vals,
            (tn ++ c.makePublic (c.replaceReservedWords v), c.goString v) ∈ cs)
    ∧ (¬ (enumNamesOf c tn vals).Nodup →
        buildEnumConstants c tn vals = .error "EnumNameCollision") := by
  constructor
  · intro cs h
    obtain ⟨h1, h2, _h3⟩ := enumConstsGo_ok c tn vals [] cs h
    refine ⟨h1, ?_, ?_⟩
    · rw [h1]
      have : (vals.map (enumConstOf c tn)).map Prod.fst = enumNamesOf c tn vals := by
        simp [enumNamesOf, List.map_map, Function.comp]
      rw [this]
      exact h2
    · intro v hv
      rw [h1]
      exact List.mem_map_of_mem _ hv
  · intro h
    exact enumConstsGo_error c tn vals [] (Or.inl h)

/-- Witness for claim C3: a clean pair of facet values builds distinct
constants, and a pair sanitizing to the same identifier (the reserved word
go, twice) fails with EnumNameCollision. -/
theorem claim_C3_witness :
    buildEnumConstants typesCtxM "Color" ["red", "blue"]
      = .ok [("ColorRed", "red"), ("ColorBlue", "blue")]
    ∧ ("Color" ++ typesCtxM.makePublic (typesCtxM.replaceReservedWords "red"),
        typesCtxM.goString "red")
        ∈ [("ColorRed", "red"), ("ColorBlue", "blue")]
    ∧ buildEnumConstants typesCtxM "Color" ["go", "go"]
        = .error "EnumNameCollision" := by
  refine ⟨rfl, ?_, (claim_C3 typesCtxM "Color" ["go", "go"]).2 (by decide)⟩
  exact ((claim_C3 typesCtxM "Color" ["red", "blue"]).1
    [("ColorRed", "red"), ("ColorBlue", "blue")] rfl).2.2 "red" (by decide)

/-! ## outfile (claim C4) -/

/-- Claim C4 counterexample: a run whose formatting step fails does write
content — the raw unformatted buffer — to the output file before aborting,
so a failing run is not free of partial output. -/
theorem claim_C4_cex :
    (outfile (fun _ => none) true true goCodeSample "types").fatalExit = true
    ∧ (outfile (fun _ => none) true true goCodeSample "types").fileContent
        = some "HDR;TYPES"
    ∧ "HDR;TYPES" ≠ "" := by
  refine ⟨?_, ?_, ?_⟩ <;> decide

/-- Claim C4 (amended): a failure before the outfile stage writes nothing,
and the formatted artifact is written only after formatting succeeds; but
when formatting fails, outfile writes the raw unformatted buffer to the
already-created output file and only then aborts the run, so a formatting
failure does leave partial output. -/
theorem claim_C4_amended (fmtSource : String → Option String) (goimportsOk : Bool)
    (gocode : String → String) (key : String) :
    (fmtSource (outfileData gocode key) = none →
        (outfile fmtSource goimportsOk true gocode key).fatalExit = true
        ∧ (outfile fmtSource goimportsOk true gocode key).fileContent
            = some (outfileData gocode key))
    ∧ (∀ src, fmtSource (outfileData gocode key) = some src →
        (outfile fmtSource goimportsOk true gocode key).fatalExit = false
        ∧ (outfile fmtSource goimportsOk true gocode key).fileContent = some src)
    ∧ (outfile fmtSource goimportsOk false gocode key).fileContent = none := by
  refine ⟨?_, ?_, rfl⟩
  · intro h
    simp [outfile, h]
  · intro src h
    simp [outfile, h]

/-- Witness for the amended claim C4: a successful format writes the
formatted text, a failing format writes the raw buffer. -/
theorem claim_C4_witness :
    (outfile (fun _ => some "FMT") true true goCodeSample "types").fileContent
      = some "FMT"
    ∧ (outfile (fun _ => none) false true goCodeSample "operations").fileContent
        = some (outfileData goCodeSample "operations") :=
  ⟨((claim_C4_amended (fun _ => some "FMT") true goCodeSample "types").2.1
      "FMT" rfl).2,
   ((claim_C4_amended (fun _ => none) false goCodeSample "operations").1 rfl).2⟩

/-! ## Ref elements (claim C5) -/

/-- Claim C5: for every element declaration carrying a ref, the generated
field takes its name from the ref with the namespace stripped (the name of
the referenced global element), its type from the resolver applied to the
ref, and both the slice shape (maxOccurs unbounded) and the nillable flag
passed to the resolver from the referencing element itself — the template
never consults the referenced target for either. -/
theorem claim_C5 (c : TypesCtx) (name ref typ maxOccurs doc : String)
    (nillable : Bool) (st : Option XSDSimpleType) (ct : Option XSDComplexType)
    (h : ref ≠ "") :
    tmplElement c (.mk name ref typ maxOccurs doc nillable st ct)
      = GoField.plain (c.makePublic (c.replaceReservedWords (c.removeNS ref)))
          (maxOccurs == "unbounded") (c.toGoType ref nillable)
          (c.removeNS ref ++ ",omitempty") :=
  tmplElement_ref c name ref typ maxOccurs doc nillable st ct h

/-- Witness for claim C5 at a sample unbounded nillable ref element; the
spec-modelled helpers resolve the ref to the local name of the referenced
global element and to (a pointer to) its type. -/
theorem claim_C5_witness :
    tmplElement typesCtxM elRefItem
      = GoField.plain
          (typesCtxM.makePublic (typesCtxM.replaceReservedWords
            (typesCtxM.removeNS "tns:Item")))
          (("unbounded" : String) == "unbounded")
          (typesCtxM.toGoType "tns:Item" true)
          (typesCtxM.removeNS "tns:Item" ++ ",omitempty")
    ∧ removeNSModel "tns:Item" = "Item"
    ∧ toGoTypeModel "tns:Item" true = "*Item" := by
  refine ⟨?_, by decide, by decide⟩
  exact claim_C5 typesCtxM "" "tns:Item" "" "unbounded" "" true none none
    (by decide)

/-! ## Complex-content extension (claim C6) -/

/-- Claim C6: a global complex type with a complex-content extension is
emitted as a struct whose first field value-embeds the resolved base type,
followed by the fields of the extension sequence, choice and
sequence-choice groups and of the extension attributes. -/
theorem claim_C6 (c : TypesCtx) (name ccBase : String)
    (ccSeq ccChoice ccSeqChoice : List XSDElement) (ccAttrs : List XSDAttr)
    (scBase : String) (scAttrs : List XSDAttr)
    (seq choice seqChoice allEl : List XSDElement) (anyCount : Nat)
    (attrs : List XSDAttr) (ns : String)
    (hguard : ¬ (scAttrs.length = 0 ∧ c.toGoType scBase false = "string"))
    (hcc : ccBase ≠ "") (hbt : c.toGoType ccBase false ≠ "") :
    tmplComplexTypeGlobal c ns
        (.mk name ccBase ccSeq ccChoice ccSeqChoice ccAttrs scBase scAttrs
          seq choice seqChoice allEl anyCount attrs)
      = .structDecl (typeNameOf c name)
          (if name ≠ c.findNameByType name
           then some (ns ++ " " ++ c.findNameByType name) else none)
          (GoField.embedded (c.toGoType ccBase false)
            :: (tmplElements c ccSeq ++ tmplElements c ccChoice
                ++ tmplElements c ccSeqChoice ++ tmplAttributes c ccAttrs)) := by
  simp only [tmplComplexTypeGlobal, tmplComplexContent]
  rw [if_neg hguard, if_pos hcc, if_pos hbt]
  simp [List.append_assoc]

/-- Witness for claim C6 at the sample extended complex type. -/
theorem claim_C6_witness :
    tmplComplexTypeGlobal typesCtxM "urn:example" ctExtended
      = .structDecl (typeNameOf typesCtxM "ExtThing")
          (if "ExtThing" ≠ typesCtxM.findNameByType "ExtThing"
           then some ("urn:example" ++ " " ++ typesCtxM.findNameByType "ExtThing")
           else none)
          (GoField.embedded (typesCtxM.toGoType "tns:BaseThing" false)
            :: (tmplElements typesCtxM
                  [.mk "extra" "" "xsd:string" "1" "" false none none]
                ++ tmplElements typesCtxM []
                ++ tmplElements typesCtxM []
                ++ tmplAttributes typesCtxM
                    [{ name := "kind", typ := "xsd:string", doc := "" }])) :=
  claim_C6 typesCtxM "ExtThing" "tns:BaseThing"
    [.mk "extra" "" "xsd:string" "1" "" false none none] [] []
    [{ name := "kind", typ := "xsd:string", doc := "" }]
    "" [] [] [] [] [] 0 [] "urn:example"
    (by decide) (by decide) (by decide)

/-! ## Simple-content extension (claim C7) -/

/-- Claim C7 counterexample: the global complex type Token has a
simple-content extension whose base resolves to the Go string type and no
attributes; the template emits it as a plain string alias — not a struct,
with no character-data Value field — refuting the claim for this case it
explicitly includes. -/
theorem claim_C7_cex :
    tmplComplexTypeGlobal typesCtxM "urn:example" ctToken
      = .aliasDecl "Token" "string"
    ∧ declChardataCount (tmplComplexTypeGlobal typesCtxM "urn:example" ctToken)
        = 0 := by
  have h : tmplComplexTypeGlobal typesCtxM "urn:example" ctToken
      = .aliasDecl (typeNameOf typesCtxM "Token") "string" := by
    rw [show ctToken
        = XSDComplexType.mk "Token" "" [] [] [] [] "xsd:string" [] [] [] [] [] 0 []
      from rfl]
    simp only [tmplComplexTypeGlobal]
    rw [if_pos (by decide)]
  rw [h, show typeNameOf typesCtxM "Token" = "Token" from by decide]
  exact ⟨rfl, rfl⟩

/-- Claim C7 (amended): every global complex type with a simple-content
extension — except one with no attributes whose base resolves to the Go
string type, which becomes a plain string alias — is emitted as a struct
containing exactly one character-data Value field typed as the resolved
base, plus one sibling field per declared attribute. -/
theorem claim_C7_amended (c : TypesCtx) (name scBase : String)
    (scAttrs : List XSDAttr)
    (seq choice seqChoice allEl : List XSDElement) (anyCount : Nat)
    (attrs : List XSDAttr) (ns : String)
    (hsc : scBase ≠ "")
    (hguard : ¬ (scAttrs.length = 0 ∧ c.toGoType scBase false = "string")) :
    tmplComplexTypeGlobal c ns
        (.mk name "" [] [] [] [] scBase scAttrs
          seq choice seqChoice allEl anyCount attrs)
      = .structDecl (typeNameOf c name)
          (if name ≠ c.findNameByType name
           then some (ns ++ " " ++ c.findNameByType name) else none)
          (GoField.chardata (c.toGoType scBase false) :: tmplAttributes c scAttrs)
    ∧ declChardataCount
        (tmplComplexTypeGlobal c ns
          (.mk name "" [] [] [] [] scBase scAttrs
            seq choice seqChoice allEl anyCount attrs)) = 1
    ∧ (tmplAttributes c scAttrs).length = scAttrs.length := by
  have h : tmplComplexTypeGlobal c ns
      (.mk name "" [] [] [] [] scBase scAttrs
        seq choice seqChoice allEl anyCount attrs)
      = .structDecl (typeNameOf c name)
          (if name ≠ c.findNameByType name
           then some (ns ++ " " ++ c.findNameByType name) else none)
          (GoField.chardata (c.toGoType scBase false)
            :: tmplAttributes c scAttrs) := by
    simp only [tmplComplexTypeGlobal, tmplSimpleContent]
    rw [if_neg hguard]
    simp [hsc]
  refine ⟨h, ?_, ?_⟩
  · rw [h]
    simp only [declChardataCount, List.countP_cons, isChardataField]
    have hz : (tmplAttributes c scAttrs).countP isChardataField = 0 := by
      rw [List.countP_eq_zero]
      intro f hf
      simp only [tmplAttributes, List.mem_map] at hf
      obtain ⟨a, _, ha⟩ := hf
      rw [← ha]
      simp [isChardataField]
    simp [hz]
  · simp [tmplAttributes]

/-- Witness for the amended claim C7 at the sample Measure type, whose base
resolves to int and which declares one attribute. -/
theorem claim_C7_witness :
    tmplComplexTypeGlobal typesCtxM "urn:example" ctMeasure
      = .structDecl (typeNameOf typesCtxM "Measure")
          (if "Measure" ≠ typesCtxM.findNameByType "Measure"
           then some ("urn:example" ++ " " ++ typesCtxM.findNameByType "Measure")
           else none)
          (GoField.chardata (typesCtxM.toGoType "xsd:int" false)
            :: tmplAttributes typesCtxM
                [{ name := "unit", typ := "xsd:string", doc := "" }])
    ∧ declChardataCount (tmplComplexTypeGlobal typesCtxM "urn:example" ctMeasure)
        = 1 :=
  ⟨(claim_C7_amended typesCtxM "Measure" "xsd:int"
      [{ name := "unit", typ := "xsd:string", doc := "" }]
      [] [] [] [] 0 [] "urn:example" (by decide) (by decide)).1,
   (claim_C7_amended typesCtxM "Measure" "xsd:int"
      [{ name := "unit", typ := "xsd:string", doc := "" }]
      [] [] [] [] 0 [] "urn:example" (by decide) (by decide)).2.1⟩

/-! ## Cardinality (claim C8) -/

/-- Claim C8: the generated field is a slice exactly when maxOccurs is
unbounded, uniformly in the three template branches the claim names: ref
elements, typed elements, and elements with an inline anonymous complex
type. -/
theorem claim_C8 (c : TypesCtx) (name ref typ maxOccurs doc : String)
    (nillable : Bool) (st : Option XSDSimpleType) (ct : Option XSDComplexType) :
    (ref ≠ "" →
      isSliceField (tmplElement c (.mk name ref typ maxOccurs doc nillable st ct))
        = (maxOccurs == "unbounded"))
    ∧ (ref = "" → typ ≠ "" →
      isSliceField (tmplElement c (.mk name ref typ maxOccurs doc nillable st ct))
        = (maxOccurs == "unbounded"))
    ∧ (ref = "" → typ = "" → st = none →
      isSliceField (tmplElement c (.mk name ref typ maxOccurs doc nillable st ct))
        = (maxOccurs == "unbounded")) := by
  refine ⟨?_, ?_, ?_⟩
  · intro h
    rw [tmplElement_ref c name ref typ maxOccurs doc nillable st ct h]
    rfl
  · intro h1 h2
    subst h1
    rw [tmplElement_typed c name typ maxOccurs doc nillable st ct h2]
    rfl
  · intro h1 h2 h3
    subst h1
    subst h2
    subst h3
    rw [tmplElement_inline c name maxOccurs doc nillable ct]
    rfl

/-- Witness for claim C8 on the three sample elements: the unbounded ref
and inline elements render as slices, the single typed element does not. -/
theorem claim_C8_witness :
    isSliceField (tmplElement typesCtxM elRefItem) = true
    ∧ isSliceField (tmplElement typesCtxM elTyped) = false
    ∧ isSliceField (tmplElement typesCtxM elInline) = true := by
  refine ⟨?_, ?_, ?_⟩
  · exact ((claim_C8 typesCtxM "" "tns:Item" "" "unbounded" "" true none none).1
      (by decide)).trans (by decide)
  · exact ((claim_C8 typesCtxM "count" "" "xsd:int" "1" "" false none none).2.1
      rfl (by decide)).trans (by decide)
  · exact ((claim_C8 typesCtxM "box" "" "" "unbounded" "" false none
      (some (.mk "" "" [] [] [] [] "" [] [ elTyped ] [] [] [] 0 []))).2.2
      rfl rfl rfl).trans (by decide)

/-! ## Enumeration values are verbatim (claim C9) -/

theorem goUnescapeAux_goStringChars (l : List Char) :
    goUnescapeAux false (goStringChars l) = l := by
  induction l with
  | nil => rfl
  | cons ch rest ih =>
    by_cases h1 : ch = Char.ofNat 92
    · subst h1
      simp [goStringChars, goEscapeChar, goUnescapeAux, ih]
    · by_cases h2 : ch = Char.ofNat 34
      · subst h2
        simp [goStringChars, goEscapeChar, goUnescapeAux, ih, h1]
      · simp [goStringChars, goEscapeChar, goUnescapeAux, h1, h2, ih]

theorem goUnescape_goStringModel (s : String) :
    goUnescape (goStringModel s) = s := by
  cases s with
  | mk data =>
    simp [goUnescape, goStringModel, goUnescapeAux_goStringChars]

/-- Claim C9: every emitted enumeration constant carries as its string
value goString applied to the original facet value — the sanitizing
identifier transforms never touch it; the value is recoverable verbatim
from the emitted literal (the spec-modelled goString is pure
string-literal escaping); and the values of a block depend only on the
goString helper, not on the reserved-word or casing transforms. -/
theorem claim_C9 (c : TypesCtx) (tn : String) (es : List EnumValue) :
    tmplEnumBlock c tn es
      = es.map (fun e =>
          (tn ++ c.makePublic (c.replaceReservedWords e.value), c.goString e.value))
    ∧ (∀ e ∈ es, (enumConstOf c tn e.value).snd = c.goString e.value)
    ∧ (∀ c2 : TypesCtx, c2.goString = c.goString →
        (tmplEnumBlock c2 tn es).map Prod.snd = (tmplEnumBlock c tn es).map Prod.snd)
    ∧ ∀ e ∈ es, goUnescape (goStringModel e.value) = e.value := by
  refine ⟨rfl, fun e _ => rfl, ?_, fun e _ => goUnescape_goStringModel e.value⟩
  intro c2 h
  simp [tmplEnumBlock, enumConstOf, List.map_map, Function.comp, h]

/-- Witness for claim C9: a facet value that is a reserved word has its
identifier remapped while its emitted value stays the word itself, and a
value containing a double quote survives the escape-unescape roundtrip. -/
theorem claim_C9_witness :
    tmplEnumBlock typesCtxM "Color" [⟨"type", ""⟩]
      = [("ColorType_", "type")]
    ∧ goUnescape (goStringModel "a\"b") = "a\"b" := by
  constructor
  · rw [(claim_C9 typesCtxM "Color" [⟨"type", ""⟩]).1]
    decide
  · exact (claim_C9 typesCtxM "X" [⟨"a\"b", ""⟩]).2.2.2 ⟨"a\"b", ""⟩
      (List.mem_singleton.mpr rfl)

/-! ## Front-end output-path guard (claim C10) -/

/-- Claim C10 counterexample: with the default -o value, directory out and
package x, and the WSDL path out/x/types.go, the guard does not abort — yet
the run opens exactly that path as an output target, so the input WSDL file
is not protected by the guard. -/
theorem claim_C10_cex :
    (mainFrontEnd "myservice.go" "out" "x" "out/x/types.go").abortedBeforeLoad
      = false
    ∧ "out/x/types.go"
        ∈ (mainFrontEnd "myservice.go" "out" "x" "out/x/types.go").outputPaths := by
  refine ⟨?_, ?_⟩ <;> decide

/-- Claim C10 (amended): the front end aborts before loading exactly when
the -o flag value string-equals the WSDL path argument; when it differs the
run proceeds and opens dir/pkg/types.go and dir/pkg/operations.go — paths
independent of -o — so the guard does not keep the input WSDL from being
opened as an output target. -/
theorem claim_C10_amended (o d p w : String) :
    (o = w → (mainFrontEnd o d p w).abortedBeforeLoad = true
      ∧ (mainFrontEnd o d p w).outputPaths = [])
    ∧ (o ≠ w → (mainFrontEnd o d p w).abortedBeforeLoad = false
      ∧ (mainFrontEnd o d p w).outputPaths
          = [ filepathJoin (filepathJoin d p) "types.go"
            , filepathJoin (filepathJoin d p) "operations.go" ]) := by
  constructor <;> intro h <;> simp [mainFrontEnd, h]

/-- Witness for the amended claim C10: equal -o and WSDL path aborts before
loading; distinct values proceed to the two dir/pkg output paths. -/
theorem claim_C10_witness :
    (mainFrontEnd "a.wsdl" "d" "p" "a.wsdl").abortedBeforeLoad = true
    ∧ (mainFrontEnd "b.go" "d" "p" "a.wsdl").outputPaths
        = [ filepathJoin (filepathJoin "d" "p") "types.go"
          , filepathJoin (filepathJoin "d" "p") "operations.go" ] :=
  ⟨((claim_C10_amended "a.wsdl" "d" "p" "a.wsdl").1 rfl).1,
   ((claim_C10_amended "b.go" "d" "p" "a.wsdl").2 (by decide)).2⟩

end GowsdlVerify
